import Mathlib

set_option maxRecDepth 100000

/-!
Verification development for the Theia repository: webpack config generation,
npm registry client, DI container wiring (markers tree, monaco frontend),
monaco editor provider, and the AppProject extension installer.
-/

/-! ## String containment helpers -/

/-- Whether a list starts with another list (character-wise, Bool-valued). -/
def listStarts : List Char → List Char → Bool
  | _, [] => true
  | [], _ :: _ => false
  | a :: as, b :: bs => a == b && listStarts as bs

/-- Whether `sub` occurs as a contiguous run inside `l`. -/
def listInfix (l sub : List Char) : Bool :=
  match l with
  | [] => listStarts [] sub
  | _ :: t => listStarts l sub || listInfix t sub

/-- Whether string `sub` occurs as a substring of `s`. -/
def strContains (s sub : String) : Bool := listInfix s.data sub.data

namespace WebpackGen

/-- The two application targets of the generator: a browser (web) app or an
Electron shell app. -/
inductive Target
  | web
  | electronRenderer
deriving DecidableEq

/-- Modelled from the spec: the string value of `this.model.target` written
into the webpack `target:` field, for the browser and Electron targets. -/
def targetString : Target → String
  | .web => "web"
  | .electronRenderer => "electron-renderer"

/-- The generator model: the application target, and the configured
`node_modules` path substituted by `this.node_modulesPath()`. -/
structure GeneratorModel where
  target : Target
  node_modulesPath : String

/-- Modelled from the spec: `AbstractGenerator.compileCopyright` (not under
src/) emits the Apache-2.0 license header used across the repository. -/
def compileCopyright : String :=
  "/*\n * Copyright (C) 2017 TypeFox and others.\n *\n * Licensed under the Apache License, Version 2.0 (the \"License\"); you may not use this file except in compliance with the License.\n * You may obtain a copy of the License at http://www.apache.org/licenses/LICENSE-2.0\n */"

/-- Modelled from the spec: `AbstractGenerator.ifWeb` (not under src/)
includes the given snippet exactly when generating for the browser (web)
target. -/
def ifWeb (m : GeneratorModel) (s : String) : String :=
  if m.target = .web then s else ""

/-- Modelled from the spec: `AbstractGenerator.ifElectron` (not under src/)
picks the first snippet for the Electron target and the second otherwise. -/
def ifElectron (m : GeneratorModel) (a b : String) : String :=
  if m.target = .electronRenderer then a else b

/-- `WebpackGenerator.compileWebpackConfig`: the generated
`webpack.config.js` content, transcribed from the template literal in the
source (JS template escapes resolved, interpolations spliced). -/
def compileWebpackConfig (m : GeneratorModel) : String :=
  compileCopyright ++
  "\n// @ts-check\nconst path = require('path');\nconst webpack = require('webpack');\nconst CopyWebpackPlugin = require('copy-webpack-plugin');\nconst CircularDependencyPlugin = require('circular-dependency-plugin');\n\nconst outputPath = path.resolve(__dirname, 'lib');\n\nconst monacoEditorPath = '" ++
  m.node_modulesPath ++
  "/monaco-editor-core/min/vs';\nconst monacoLanguagesPath = '" ++
  m.node_modulesPath ++
  "/monaco-languages/release';\nconst monacoCssLanguagePath = '" ++
  m.node_modulesPath ++
  "/monaco-css/release/min';\nconst monacoJsonLanguagePath = '" ++
  m.node_modulesPath ++
  "/monaco-json/release/min';\nconst monacoHtmlLanguagePath = '" ++
  m.node_modulesPath ++
  "/monaco-html/release/min';" ++
  ifWeb m ("\nconst requirePath = '" ++ m.node_modulesPath ++ "/requirejs/require.js';\n\nconst port = require('yargs').argv.port || 3000;") ++
  "\n\nmodule.exports = \x7b\n    entry: path.resolve(__dirname, 'src-gen/frontend/index.js'),\n    output: \x7b\n        filename: 'bundle.js',\n        path: outputPath\n    \x7d,\n    target: '" ++
  targetString m.target ++
  "',\n    node: \x7b" ++
  ifElectron m ("\n        __dirname: false,\n        __filename: false") ("\n        fs: 'empty',\n        child_process: 'empty',\n        net: 'empty',\n        crypto: 'empty'") ++
  "\n    \x7d,\n    module: \x7b\n        rules: [\n            \x7b\n                test: /\\.css$/,\n                loader: 'style-loader!css-loader'\n            \x7d,\n            \x7b\n                test: /\\.(ttf|eot|svg)(\\?v=\\d+\\.\\d+\\.\\d+)?$/,\n                loader: 'url-loader?limit=10000&mimetype=image/svg+xml'\n            \x7d,\n            \x7b\n                test: /\\.js$/,\n                enforce: 'pre',\n                loader: 'source-map-loader'\n            \x7d,\n            \x7b\n                test: /\\.woff(2)?(\\?v=[0-9]\\.[0-9]\\.[0-9])?$/,\n                loader: \"url-loader?limit=10000&mimetype=application/font-woff\"\n            \x7d\n        ],\n        noParse: /vscode-languageserver-types|vscode-uri/\n    \x7d,\n    resolve: \x7b\n        extensions: ['.js'],\n        alias: \x7b\n            'vs': path.resolve(outputPath, monacoEditorPath)\n        \x7d\n    \x7d,\n    devtool: 'source-map',\n    plugins: [\n        new webpack.HotModuleReplacementPlugin(),\n        new CopyWebpackPlugin([" ++
  ifWeb m ("\n            \x7b\n                from: requirePath,\n                to: '.'\n            \x7d,") ++
  "\n            \x7b\n                from: monacoEditorPath,\n                to: 'vs'\n            \x7d,\n            \x7b\n                from: monacoLanguagesPath,\n                to: 'vs/basic-languages'\n            \x7d,\n            \x7b\n                from: monacoCssLanguagePath,\n                to: 'vs/language/css'\n            \x7d,\n            \x7b\n                from: monacoJsonLanguagePath,\n                to: 'vs/language/json'\n            \x7d,\n            \x7b\n                from: monacoHtmlLanguagePath,\n                to: 'vs/language/html'\n            \x7d\n        ]),\n        new CircularDependencyPlugin(\x7b\n            exclude: /(node_modules|examples)\\/./,\n            failOnError: false // https://github.com/nodejs/readable-stream/issues/280#issuecomment-297076462\n        \x7d)\n    ],\n    stats: \x7b\n        warnings: true\n    \x7d" ++
  ifWeb m (",\n    devServer: \x7b\n        inline: true,\n        hot: true,\n        proxy: \x7b\n            '/services/*': \x7b\n                target: 'ws://localhost:' + port,\n                ws: true\n            \x7d,\n            '*': 'http://localhost:' + port,\n        \x7d,\n        historyApiFallback: true,\n        stats: \x7b\n            colors: true,\n            warnings: false\n        \x7d,\n        host: process.env.HOST,\n        port: process.env.PORT\n    \x7d") ++
  "\n\x7d;"

end WebpackGen

namespace Npm

/-- UTF-8 byte sequence of a unicode scalar value. -/
def utf8Bytes (c : Char) : List Nat :=
  let n := c.toNat
  if n < 128 then [n]
  else if n < 2048 then [192 + n / 64, 128 + n % 64]
  else if n < 65536 then [224 + n / 4096, 128 + (n / 64) % 64, 128 + n % 64]
  else [240 + n / 262144, 128 + (n / 4096) % 64, 128 + (n / 64) % 64, 128 + n % 64]

/-- The bytes `encodeURIComponent` leaves unescaped:
`A–Z a–z 0–9 ! ' ( ) * - . _ ~` (ECMA-262). -/
def isUnreservedByte (b : Nat) : Bool :=
  (65 ≤ b && b ≤ 90) || (97 ≤ b && b ≤ 122) || (48 ≤ b && b ≤ 57) ||
  b == 33 || b == 39 || b == 40 || b == 41 || b == 42 ||
  b == 45 || b == 46 || b == 95 || b == 126

/-- Uppercase hexadecimal digit for `n < 16`. -/
def hexDigit (n : Nat) : Char :=
  if n < 10 then Char.ofNat (48 + n) else Char.ofNat (55 + n)

/-- Percent-encoding of one byte, or the byte itself when unreserved. -/
def encByte (b : Nat) : String :=
  if isUnreservedByte b then String.singleton (Char.ofNat b)
  else "%" ++ String.singleton (hexDigit (b / 16)) ++ String.singleton (hexDigit (b % 16))

/-- Encoding of one character: percent-encode each of its UTF-8 bytes. -/
def encChar (c : Char) : String :=
  String.join ((utf8Bytes c).map encByte)

/-- Encoding of a character list, front to back. -/
def encList : List Char → String
  | [] => ""
  | c :: cs => encChar c ++ encList cs

/-- JS `encodeURIComponent`, modelled per ECMA-262: percent-encodes the UTF-8
bytes of every character outside the unreserved set. -/
def encodeURIComponent (s : String) : String := encList s.data

/-- The npm registry base URL used by `view`. -/
def registry : String := "https://registry.npmjs.org/"

/-- The request URL computed by `view`: for a name whose first character is
'@', the leading '@' stays literal and the rest is URI-encoded
(`'@' + encodeURIComponent(param.name.substr(1))`); otherwise the whole name
is URI-encoded. -/
def viewUrl (name : String) : String :=
  if name.data.head? = some '@' then registry ++ "@" ++ encList name.data.tail
  else registry ++ encodeURIComponent name

/-- The abbreviated-metadata Accept header value sent by `view`. -/
def abbreviatedAccept : String :=
  "application/vnd.npm.install-v1+json; q=1.0, application/json; q=0.8, */*"

/-- The headers computed by `view`: the Accept header is set exactly when
`param.abbreviated === undefined || param.abbreviated`. -/
def viewHeaders (abbreviated : Option Bool) : List (String × String) :=
  if abbreviated.getD true then [("Accept", abbreviatedAccept)] else []

/-- Outcome of the underlying HTTP request: either an error passed to the
callback, or a response with status code, status message and body. -/
inductive RequestOutcome
  | reqError (err : String)
  | response (statusCode : Nat) (statusMessage : String) (body : String)

/-- The callback in `view`'s Promise executor: an error rejects with it, a
non-200 status rejects with `statusCode + ": " + statusMessage + " for " +
url`, and a 200 response resolves with the parsed body. `JSON.parse` is a JS
builtin, modelled as the total parameter `parse`. -/
def viewResult {α : Type} (parse : String → α) (url : String) :
    RequestOutcome → Except String α
  | .reqError e => .error e
  | .response code msg body =>
      if code ≠ 200 then .error (toString code ++ ": " ++ msg ++ " for " ++ url)
      else .ok (parse body)

/-- Whether the promise was rejected. -/
def isRejected {ε α : Type} : Except ε α → Bool
  | .error _ => true
  | .ok _ => false

end Npm

namespace MonacoDI

/-- Service identifiers bound by the monaco frontend `ContainerModule`. -/
inductive Svc
  | m2p | p2m
  | monacoLanguages | languages
  | monacoWorkspace | workspace
  | monacoEditorService | monacoTextModelService | monacoContextMenuService
  | monacoEditorProvider
  | monacoCommandService | monacoCommandServiceFactory
  | textEditorProvider
  | monacoCommandRegistry
  | commandContribution | menuContribution | keybindingContribution
  | monacoQuickOpenService | quickOpenService
deriving DecidableEq

/-- Implementation classes instantiated by the bindings. -/
inductive Cls
  | M2PC | P2MC
  | MonacoLanguagesC | MonacoWorkspaceC
  | MonacoEditorServiceC | MonacoTextModelServiceC | MonacoContextMenuServiceC
  | MonacoEditorProviderC | MonacoCommandServiceC | MonacoCommandRegistryC
  | MonacoEditorCommandHandlersC | MonacoEditorMenuContributionC
  | MonacoKeybindingContributionC | MonacoQuickOpenServiceC
deriving DecidableEq

/-- Binding providers of the module: `toSelf`/`to` construct a class
instance, `toDynamicValue(ctx => ctx.container.get(s))` delegates to another
service, `toAutoFactory` yields a factory value, `toProvider` a provider
value. -/
inductive Provider
  | toSelfOf (c : Cls)
  | toClass (c : Cls)
  | dynamicGet (s : Svc)
  | autoFactory (s : Svc)
  | providerFor (s : Svc)
deriving DecidableEq

/-- inversify binding scopes; the default scope (no `.inSingletonScope()`
call) is transient. -/
inductive Scope
  | singleton
  | transient
deriving DecidableEq

structure Binding where
  svc : Svc
  provider : Provider
  scope : Scope
deriving DecidableEq

/-- The binding table of the monaco frontend `ContainerModule`, in source
order. `rebind(QuickOpenService)` replaces the core binding, so it appears
here as the module's binding for that identifier. -/
def monacoFrontendModule : List Binding := [
  ⟨.m2p, .toSelfOf .M2PC, .singleton⟩,
  ⟨.p2m, .toSelfOf .P2MC, .singleton⟩,
  ⟨.monacoLanguages, .toSelfOf .MonacoLanguagesC, .singleton⟩,
  ⟨.languages, .dynamicGet .monacoLanguages, .transient⟩,
  ⟨.monacoWorkspace, .toSelfOf .MonacoWorkspaceC, .singleton⟩,
  ⟨.workspace, .dynamicGet .monacoWorkspace, .transient⟩,
  ⟨.monacoEditorService, .toSelfOf .MonacoEditorServiceC, .singleton⟩,
  ⟨.monacoTextModelService, .toSelfOf .MonacoTextModelServiceC, .singleton⟩,
  ⟨.monacoContextMenuService, .toSelfOf .MonacoContextMenuServiceC, .singleton⟩,
  ⟨.monacoEditorProvider, .toSelfOf .MonacoEditorProviderC, .singleton⟩,
  ⟨.monacoCommandService, .toSelfOf .MonacoCommandServiceC, .transient⟩,
  ⟨.monacoCommandServiceFactory, .autoFactory .monacoCommandService, .transient⟩,
  ⟨.textEditorProvider, .providerFor .monacoEditorProvider, .transient⟩,
  ⟨.monacoCommandRegistry, .toSelfOf .MonacoCommandRegistryC, .singleton⟩,
  ⟨.commandContribution, .toClass .MonacoEditorCommandHandlersC, .singleton⟩,
  ⟨.menuContribution, .toClass .MonacoEditorMenuContributionC, .singleton⟩,
  ⟨.keybindingContribution, .toClass .MonacoKeybindingContributionC, .singleton⟩,
  ⟨.monacoQuickOpenService, .toSelfOf .MonacoQuickOpenServiceC, .singleton⟩,
  ⟨.quickOpenService, .dynamicGet .monacoQuickOpenService, .singleton⟩
]

/-- Resolved values: a class instance with its creation serial number, or a
factory/provider closure over a target service. -/
inductive Val
  | inst (c : Cls) (id : Nat)
  | factoryVal (s : Svc)
  | providerVal (s : Svc)
deriving DecidableEq

/-- Container state: the next instance serial number and the singleton
cache. -/
structure CState where
  nextId : Nat
  cache : List (Svc × Val)
deriving DecidableEq

/-- First binding registered for a service identifier. -/
def findBinding (bs : List Binding) (s : Svc) : Option Binding :=
  bs.find? (fun b => decide (b.svc = s))

/-- Resolution (`container.get`): a singleton binding returns its cached
value when present; otherwise the provider constructs a value (fresh
instance, delegation, or factory/provider closure) and a singleton binding
caches it. `fuel` bounds delegation depth. -/
def resolve (bs : List Binding) : Nat → Svc → CState → Option (Val × CState)
  | 0, _, _ => none
  | Nat.succ fuel, s, st =>
    match findBinding bs s with
    | none => none
    | some b =>
      let cached : Option Val :=
        match b.scope with
        | .singleton => (st.cache.find? (fun e => decide (e.1 = s))).map (fun e => e.2)
        | .transient => none
      match cached with
      | some v => some (v, st)
      | none =>
        let created : Option (Val × CState) :=
          match b.provider with
          | .toSelfOf c => some (.inst c st.nextId, { st with nextId := st.nextId + 1 })
          | .toClass c => some (.inst c st.nextId, { st with nextId := st.nextId + 1 })
          | .dynamicGet s2 => resolve bs fuel s2 st
          | .autoFactory s2 => some (.factoryVal s2, st)
          | .providerFor s2 => some (.providerVal s2, st)
        match created with
        | none => none
        | some (v, st2) =>
          match b.scope with
          | .singleton => some (v, { st2 with cache := (s, v) :: st2.cache })
          | .transient => some (v, st2)

end MonacoDI

namespace WebpackGen

/-- A memory file system (models `Base.MemFsEditor`): file name to content. -/
def MemFs := List (String × String)

/-- `fs.exists(name)`: whether a file with the given name is present. -/
def MemFs.existsFile (fs : MemFs) (name : String) : Bool :=
  fs.any (fun e => e.1 == name)

/-- `fs.write(name, content)`: store `content` under `name`. -/
def MemFs.write (fs : MemFs) (name content : String) : MemFs :=
  (name, content) :: fs.filter (fun e => !(e.1 == name))

/-- `WebpackGenerator.generate`: write `webpack.config.js` only when no file
with that name exists. -/
def generate (m : GeneratorModel) (fs : MemFs) : MemFs :=
  if !(fs.existsFile "webpack.config.js") then
    fs.write "webpack.config.js" (compileWebpackConfig m)
  else
    fs

end WebpackGen

namespace MarkersDI

/-- Service identifiers used by the problem/marker tree containers. -/
inductive Svc
  | treeS | iTreeS | treeModelS | iTreeModelS | treeWidgetS | treePropsS
  | treeServicesS
  | problemTreeS | problemTreeModelS | problemWidgetS
  | markerTreeServicesS | markerOptionsS
deriving DecidableEq

/-- Implementation classes bound in the tree containers. -/
inductive Cls
  | TreeC | TreeModelC | TreeWidgetC | TreeServicesC
  | ProblemTreeC | ProblemTreeModelC | ProblemWidgetC | MarkerTreeServicesC
deriving DecidableEq

/-- Tree widget props. Modelled from the spec: `TreeProps` and
`defaultTreeProps` of @theia/core (not under src/) carry the context menu
path, absent by default. -/
structure TreeProps where
  contextMenuPath : Option (List String)
deriving DecidableEq

/-- Modelled from the spec: the default tree props have no context menu. -/
def defaultTreeProps : TreeProps := { contextMenuPath := none }

/-- Modelled from the spec: the `MARKER_CONTEXT_MENU` menu path constant
from problem-contribution (not under src/). -/
def MARKER_CONTEXT_MENU : List String := ["marker-context-menu"]

/-- `MarkerOptions` of the marker tree. -/
structure MarkerOptions where
  kind : String
deriving DecidableEq

/-- `MARKER_TREE_PROPS`: object spread of `defaultTreeProps` with
`contextMenuPath` set to `MARKER_CONTEXT_MENU` (from the source). -/
def MARKER_TREE_PROPS : TreeProps :=
  { defaultTreeProps with contextMenuPath := some MARKER_CONTEXT_MENU }

/-- `MARKER_OPTIONS` (from the source): `kind: 'problem'`. -/
def MARKER_OPTIONS : MarkerOptions := { kind := "problem" }

/-- Constant values bindable with `toConstantValue`. -/
inductive ConstVal
  | props (p : TreeProps)
  | opts (o : MarkerOptions)
deriving DecidableEq

/-- Binding providers used by the tree containers. -/
inductive Provider
  | toSelfOf (c : Cls)
  | dynamicGet (s : Svc)
  | toConstant (v : ConstVal)
deriving DecidableEq

/-- A child container: its own binding list plus the parent's bindings. -/
structure ChildContainer where
  bindings : List (Svc × Provider)
  parent : List (Svc × Provider)
deriving DecidableEq

/-- First provider bound for a service in a binding list. -/
def lookupB (bs : List (Svc × Provider)) (s : Svc) : Option Provider :=
  (bs.find? (fun e => decide (e.1 = s))).map (fun e => e.2)

/-- `child.bind(s).to...(p)`. -/
def bindS (c : ChildContainer) (s : Svc) (p : Provider) : ChildContainer :=
  { c with bindings := c.bindings ++ [(s, p)] }

/-- `child.unbind(s)`. -/
def unbindS (c : ChildContainer) (s : Svc) : ChildContainer :=
  { c with bindings := c.bindings.filter (fun e => !(decide (e.1 = s))) }

/-- `child.rebind(s).to...(p)`: replace the binding for `s`. -/
def rebindS (c : ChildContainer) (s : Svc) (p : Provider) : ChildContainer :=
  bindS (unbindS c s) s p

/-- Resolved values: an instance of a class, or a bound constant. -/
inductive Val
  | instOf (c : Cls)
  | constOf (v : ConstVal)
deriving DecidableEq

/-- `container.get`: the child's own binding wins, else the parent's;
dynamic values resolve through the child again. `fuel` bounds delegation. -/
def getS (c : ChildContainer) : Nat → Svc → Option Val
  | 0, _ => none
  | Nat.succ fuel, s =>
    match (match lookupB c.bindings s with
           | some p => some p
           | none => lookupB c.parent s) with
    | none => none
    | some (.toSelfOf cl) => some (.instOf cl)
    | some (.dynamicGet s2) => getS c fuel s2
    | some (.toConstant v) => some (.constOf v)

/-- Modelled from the spec: `createTreeContainer` of @theia/core (not under
src/) creates a child of the parent container binding the default tree,
tree model, tree widget, tree services and `defaultTreeProps`. -/
def createTreeContainer (parent : List (Svc × Provider)) : ChildContainer :=
  { parent := parent,
    bindings := [
      (.treeS, .toSelfOf .TreeC),
      (.iTreeS, .dynamicGet .treeS),
      (.treeModelS, .toSelfOf .TreeModelC),
      (.iTreeModelS, .dynamicGet .treeModelS),
      (.treeWidgetS, .toSelfOf .TreeWidgetC),
      (.treeServicesS, .toSelfOf .TreeServicesC),
      (.treePropsS, .toConstant (.props defaultTreeProps))
    ] }

/-- `createProblemTreeContainer`, transcribed from the source: rebind tree,
model and widget to their problem variants and set the marker props and
options. -/
def createProblemTreeContainer (parent : List (Svc × Provider)) : ChildContainer :=
  let child := createTreeContainer parent
  let child := unbindS child .treeS
  let child := bindS child .problemTreeS (.toSelfOf .ProblemTreeC)
  let child := rebindS child .iTreeS (.dynamicGet .problemTreeS)
  let child := unbindS child .treeWidgetS
  let child := bindS child .problemWidgetS (.toSelfOf .ProblemWidgetC)
  let child := unbindS child .treeModelS
  let child := bindS child .problemTreeModelS (.toSelfOf .ProblemTreeModelC)
  let child := rebindS child .iTreeModelS (.dynamicGet .problemTreeModelS)
  let child := bindS child .markerTreeServicesS (.toSelfOf .MarkerTreeServicesC)
  let child := rebindS child .treePropsS (.toConstant (.props MARKER_TREE_PROPS))
  let child := bindS child .markerOptionsS (.toConstant (.opts MARKER_OPTIONS))
  child

end MarkersDI

namespace MonacoProvider

/-- A promise, modelled as a resolution time and the resolved value. -/
structure Promise (α : Type) where
  time : Nat
  val : α
deriving DecidableEq

/-- `Promise.all` on a pair: resolves at the later of the two times. -/
def promiseAll2 {α β : Type} (p : Promise α) (q : Promise β) :
    Promise (α × β) :=
  ⟨max p.time q.time, (p.val, q.val)⟩

/-- `.then`: transform the resolved value, keeping the resolution time. -/
def thenMap {α β : Type} (p : Promise α) (f : α → β) : Promise β :=
  ⟨p.time, f p.val⟩

/-- The underlying monaco text model (identified by a serial). -/
structure ITextModel where
  modelId : Nat
deriving DecidableEq

/-- `MonacoEditorModel`: its monaco text model and read-only flag. -/
structure MonacoEditorModel where
  readOnly : Bool
  textEditorModel : ITextModel
deriving DecidableEq

/-- A text-model reference produced by `createModelReference`. -/
structure Reference where
  object : MonacoEditorModel
deriving DecidableEq

/-- The editor preference values read by the provider. -/
structure EditorPreferences where
  tabSize : Nat
  lineNumbers : String
  renderWhitespace : String
deriving DecidableEq

/-- The `MonacoEditor.IOptions` fields set by `getEditorOptions`. -/
structure IOptions where
  model : ITextModel
  wordWrap : String
  folding : Bool
  lineNumbers : String
  renderWhitespace : String
  glyphMargin : Bool
  readOnly : Bool
deriving DecidableEq

/-- The constructed `MonacoEditor`: its uri and construction options. -/
structure MonacoEditor where
  uri : String
  options : IOptions
deriving DecidableEq

/-- `MonacoEditorProvider.getEditorOptions`, transcribed from the source. -/
def getEditorOptions (prefs : EditorPreferences) (model : MonacoEditorModel) :
    IOptions :=
  { model := model.textEditorModel
    wordWrap := "off"
    folding := true
    lineNumbers := prefs.lineNumbers
    renderWhitespace := prefs.renderWhitespace
    glyphMargin := true
    readOnly := model.readOnly }

/-- `MonacoEditorProvider.get`: waits on `Promise.all` of the model
reference promise and `editorPreferences.ready`, then constructs the
`MonacoEditor` with `getEditorOptions` of the referenced model and the
current preference values. -/
def get (prefs : EditorPreferences) (uri : String)
    (referencePromise : Promise Reference) (readyPromise : Promise Unit) :
    Promise MonacoEditor :=
  thenMap (promiseAll2 referencePromise readyPromise)
    (fun r => { uri := uri, options := getEditorOptions prefs r.1.object })

end MonacoProvider

namespace Installer

/-- Declared inputs of an installation: the extension names declared in
theia.package.json's dependencies, and the names that have an entry in the
localDependencies of .yo-rc.json. -/
structure ProjectConfig where
  theiaDependencies : List String
  localDependencies : List String
deriving DecidableEq

/-- The on-disk application project tree: the dependencies of the generated
package.json, the extensions under node_modules (with a flag telling whether
the entry is a link), and whether lib/bundle.js exists. -/
structure ProjectState where
  pckDependencies : List String
  nodeModules : List (String × Bool)
  bundleExists : Bool
deriving DecidableEq

/-- Parameter of the onDidInstall event. -/
structure DidStopInstallationParam where
  failed : Bool
deriving DecidableEq

/-- Installation events, in firing order. -/
inductive InstallEvent
  | onWillInstall
  | onDidInstall (p : DidStopInstallationParam)
deriving DecidableEq

/-- Result of an installation run: the resulting project tree and the fired
events in order. -/
structure InstallRun where
  state : ProjectState
  events : List InstallEvent
deriving DecidableEq

/-- Modelled from the spec: `AppProject.install` (app-project.ts, not under
src/). A run fires onWillInstall, resolves the extension set declared in
theia.package.json, generates the application package.json with exactly
those dependencies, reconciles node_modules (keeps declared entries,
installs the missing ones — linking those that have an entry in the
localDependencies of .yo-rc.json), rebuilds the frontend bundle with
webpack, and fires onDidInstall with the failed flag; a failed run leaves
the project tree unchanged. `ok` abstracts whether the package-manager and
webpack steps succeed. -/
def install (cfg : ProjectConfig) (ok : Bool) (st : ProjectState) :
    InstallRun :=
  if ok then
    let declared := cfg.theiaDependencies
    let kept := st.nodeModules.filter (fun e => decide (e.1 ∈ declared))
    let added := (declared.filter
        (fun n => !(st.nodeModules.any (fun e => decide (e.1 = n))))).map
      (fun n => (n, decide (n ∈ cfg.localDependencies)))
    { state := { pckDependencies := declared
                 nodeModules := kept ++ added
                 bundleExists := true }
      events := [.onWillInstall, .onDidInstall ⟨false⟩] }
  else
    { state := st, events := [.onWillInstall, .onDidInstall ⟨true⟩] }

/-- Whether an extension name is present under node_modules. -/
def hasModule (st : ProjectState) (name : String) : Prop :=
  ∃ linked, (name, linked) ∈ st.nodeModules

end Installer

namespace WebpackGen

theorem existsFile_write (fs : MemFs) (n c : String) :
    (fs.write n c).existsFile n = true := by
  simp [MemFs.write, MemFs.existsFile, List.any_cons]

theorem generate_of_existsFile (m : GeneratorModel) (fs : MemFs)
    (h : fs.existsFile "webpack.config.js" = true) : generate m fs = fs := by
  simp [generate, h]

end WebpackGen

/-- C5: the compiled webpack configuration sets the `target` field to the
generator model's target; it contains the require.js copy rule, the
yargs-based port constant defaulting to 3000, and the devServer block
proxying '/services/*' to 'ws://localhost:' + port exactly when generating
for the browser (web) target, and the node stanza with `__dirname: false`
and `__filename: false` exactly when generating for the Electron target
(otherwise fs, child_process, net and crypto are set to 'empty'). Stated for
the generator model with `node_modulesPath` = "./node_modules". -/
theorem C5_compileWebpackConfig_target_blocks (t : WebpackGen.Target) :
    let c := WebpackGen.compileWebpackConfig ⟨t, "./node_modules"⟩
    strContains c ("target: '" ++ WebpackGen.targetString t ++ "',") = true
    ∧ strContains c "from: requirePath" = (t == .web)
    ∧ strContains c "const port = require('yargs').argv.port || 3000;" = (t == .web)
    ∧ strContains c "devServer: " = (t == .web)
    ∧ strContains c "'/services/*'" = (t == .web)
    ∧ strContains c "target: 'ws://localhost:' + port" = (t == .web)
    ∧ strContains c "__dirname: false" = (t == .electronRenderer)
    ∧ strContains c "__filename: false" = (t == .electronRenderer)
    ∧ strContains c "fs: 'empty'" = (t != .electronRenderer)
    ∧ strContains c "child_process: 'empty'" = (t != .electronRenderer)
    ∧ strContains c "net: 'empty'" = (t != .electronRenderer)
    ∧ strContains c "crypto: 'empty'" = (t != .electronRenderer) := by
  cases t <;>
    exact ⟨by decide, by decide, by decide, by decide, by decide, by decide,
      by decide, by decide, by decide, by decide, by decide, by decide⟩

/-- C10: `WebpackGenerator.generate` writes `webpack.config.js` only when no
file with that name exists; when it is present, generate performs no write
and the file system (hence the file's content) is unchanged, and generate is
idempotent. -/
theorem C10_generate_idempotent_no_overwrite (m : WebpackGen.GeneratorModel)
    (fs fs' : WebpackGen.MemFs)
    (h : fs'.existsFile "webpack.config.js" = true) :
    WebpackGen.generate m (WebpackGen.generate m fs) = WebpackGen.generate m fs
    ∧ WebpackGen.generate m fs' = fs' := by
  constructor
  · by_cases hfs : fs.existsFile "webpack.config.js" = true
    · rw [WebpackGen.generate_of_existsFile m fs hfs,
        WebpackGen.generate_of_existsFile m fs hfs]
    · have hw : WebpackGen.generate m fs =
          fs.write "webpack.config.js" (WebpackGen.compileWebpackConfig m) := by
        simp [WebpackGen.generate, Bool.eq_false_iff.mpr hfs]
      rw [hw]
      exact WebpackGen.generate_of_existsFile m _
        (WebpackGen.existsFile_write fs _ _)
  · exact WebpackGen.generate_of_existsFile m fs' h

/-- Witness for C10 at a concrete file system that already contains a
`webpack.config.js`. -/
theorem C10_generate_idempotent_no_overwrite_witness :
    WebpackGen.generate ⟨.web, "p"⟩ (WebpackGen.generate ⟨.web, "p"⟩ [])
      = WebpackGen.generate ⟨.web, "p"⟩ []
    ∧ WebpackGen.generate ⟨.web, "p"⟩ [("webpack.config.js", "custom")]
      = [("webpack.config.js", "custom")] :=
  C10_generate_idempotent_no_overwrite ⟨.web, "p"⟩ []
    [("webpack.config.js", "custom")] (by decide)

/-- C6: after loading the monaco frontend ContainerModule (fresh container
state), resolving QuickOpenService yields the same instance as resolving
MonacoQuickOpenService, and stays the same on every further resolution (the
rebinding is in singleton scope); MonacoCommandService is bound in transient
scope, so each invocation of the auto factory bound to
MonacoCommandServiceFactory produces a distinct instance. -/
theorem C6_quickOpen_singleton_commandService_transient :
    (((MonacoDI.resolve MonacoDI.monacoFrontendModule 10 .quickOpenService
        ⟨0, []⟩).map Prod.fst) = some (.inst .MonacoQuickOpenServiceC 0))
    ∧ ((((MonacoDI.resolve MonacoDI.monacoFrontendModule 10 .quickOpenService
        ⟨0, []⟩).bind (fun p => MonacoDI.resolve MonacoDI.monacoFrontendModule
          10 .monacoQuickOpenService p.2)).map Prod.fst)
        = some (.inst .MonacoQuickOpenServiceC 0))
    ∧ (((((MonacoDI.resolve MonacoDI.monacoFrontendModule 10 .quickOpenService
        ⟨0, []⟩).bind (fun p => MonacoDI.resolve MonacoDI.monacoFrontendModule
          10 .monacoQuickOpenService p.2)).bind
          (fun p => MonacoDI.resolve MonacoDI.monacoFrontendModule
            10 .quickOpenService p.2)).map Prod.fst)
        = some (.inst .MonacoQuickOpenServiceC 0))
    ∧ (((MonacoDI.resolve MonacoDI.monacoFrontendModule 10
        .monacoCommandServiceFactory ⟨0, []⟩).map Prod.fst)
        = some (.factoryVal .monacoCommandService))
    ∧ (((MonacoDI.resolve MonacoDI.monacoFrontendModule 10
        .monacoCommandService ⟨0, []⟩).map Prod.fst)
        = some (.inst .MonacoCommandServiceC 0))
    ∧ ((((MonacoDI.resolve MonacoDI.monacoFrontendModule 10
        .monacoCommandService ⟨0, []⟩).bind
          (fun p => MonacoDI.resolve MonacoDI.monacoFrontendModule 10
            .monacoCommandService p.2)).map Prod.fst)
        = some (.inst .MonacoCommandServiceC 1))
    ∧ (MonacoDI.Val.inst .MonacoCommandServiceC 0
        ≠ MonacoDI.Val.inst .MonacoCommandServiceC 1) := by
  exact ⟨by decide, by decide, by decide, by decide, by decide, by decide,
    by decide⟩

namespace Npm

theorem encList_append (l1 l2 : List Char) :
    encList (l1 ++ l2) = encList l1 ++ encList l2 := by
  induction l1 with
  | nil =>
    apply String.ext
    simp [encList]
  | cons c cs ih =>
    apply String.ext
    simp [encList, ih]

theorem encChar_slash : encChar '/' = "%2F" := by decide

end Npm

/-- C8: the promise returned by `view` rejects exactly when the HTTP request
yields an error or the status code is not 200 — in the non-200 case with an
error whose message is the status code, the status message and the requested
URL — and otherwise resolves with the parsed response body. -/
theorem C8_view_rejects_iff_error_or_non200 {α : Type}
    (parse : String → α) (url : String) (o : Npm.RequestOutcome)
    (e : String) (code : Nat) (msg body : String) (hne : code ≠ 200) :
    (Npm.isRejected (Npm.viewResult parse url o) = true ↔
      (∃ e', o = .reqError e')
      ∨ (∃ c m b, o = .response c m b ∧ c ≠ 200))
    ∧ Npm.viewResult parse url (.reqError e) = .error e
    ∧ Npm.viewResult parse url (.response code msg body)
        = .error (toString code ++ ": " ++ msg ++ " for " ++ url)
    ∧ Npm.viewResult parse url (.response 200 msg body) = .ok (parse body) := by
  refine ⟨?_, rfl, ?_, ?_⟩
  · cases o with
    | reqError e' =>
      simp [Npm.viewResult, Npm.isRejected]
    | response c m b =>
      by_cases hc : c = 200
      · subst hc
        simp [Npm.viewResult, Npm.isRejected]
      · simp [Npm.viewResult, Npm.isRejected, hc]
  · simp [Npm.viewResult, hne]
  · simp [Npm.viewResult]

/-- Witness for C8 at a concrete request outcome and a non-200 status. -/
theorem C8_view_rejects_iff_error_or_non200_witness :
    (Npm.isRejected (Npm.viewResult (fun s => s)
        "https://registry.npmjs.org/express" (.reqError "boom")) = true ↔
      (∃ e', Npm.RequestOutcome.reqError "boom" = .reqError e')
      ∨ (∃ c m b, Npm.RequestOutcome.reqError "boom" = .response c m b ∧ c ≠ 200))
    ∧ Npm.viewResult (fun s => s) "https://registry.npmjs.org/express"
        (.reqError "boom") = .error "boom"
    ∧ Npm.viewResult (fun s => s) "https://registry.npmjs.org/express"
        (.response 404 "Not Found" "nope")
        = .error (toString 404 ++ ": " ++ "Not Found" ++ " for "
            ++ "https://registry.npmjs.org/express")
    ∧ Npm.viewResult (fun s => s) "https://registry.npmjs.org/express"
        (.response 200 "OK" "nope") = .ok ((fun s => s) "nope") :=
  C8_view_rejects_iff_error_or_non200 (fun s => s)
    "https://registry.npmjs.org/express" (.reqError "boom") "boom"
    404 "Not Found" "nope" (by decide)

/-- C9: for a package name beginning with '@', `view` requests
`https://registry.npmjs.org/@` followed by the URI-encoding of the name
without its leading '@' — so for a scoped name the '/' separating scope and
package is encoded as %2F while the leading '@' stays literal; for any other
name the URL is the registry base followed by the URI-encoding of the whole
name; and the abbreviated-metadata Accept header is sent exactly when
`abbreviated` is undefined or true. -/
theorem C9_viewUrl_scoped_encoding_and_accept_header
    (scope pkg nameA nameO : String) (rest : List Char) (abbr : Option Bool)
    (hA : nameA.data = '@' :: rest)
    (hO : nameO.data.head? ≠ some '@') :
    Npm.viewUrl nameA = Npm.registry ++ "@" ++ Npm.encList rest
    ∧ Npm.viewUrl ("@" ++ scope ++ "/" ++ pkg)
        = Npm.registry ++ "@" ++ Npm.encodeURIComponent scope ++ "%2F"
          ++ Npm.encodeURIComponent pkg
    ∧ Npm.viewUrl nameO = Npm.registry ++ Npm.encodeURIComponent nameO
    ∧ (("Accept", Npm.abbreviatedAccept) ∈ Npm.viewHeaders abbr ↔
        abbr = none ∨ abbr = some true) := by
  refine ⟨?_, ?_, ?_, ?_⟩
  · simp [Npm.viewUrl, hA]
  · have hdata : ("@" ++ scope ++ "/" ++ pkg).data
        = '@' :: (scope.data ++ '/' :: pkg.data) := by
      simp [String.data_append]
    apply String.ext
    simp [Npm.viewUrl, hdata, Npm.encodeURIComponent, Npm.encList_append,
      Npm.encList, Npm.encChar_slash]
  · simp [Npm.viewUrl, hO]
  · cases abbr with
    | none => simp [Npm.viewHeaders]
    | some b => cases b <;> simp [Npm.viewHeaders]

/-- Witness for C9 at the scoped name "@theia/core", the plain name
"express", and an undefined `abbreviated`. -/
theorem C9_viewUrl_scoped_encoding_and_accept_header_witness :
    Npm.viewUrl "@theia/core"
      = Npm.registry ++ "@" ++ Npm.encList "theia/core".data
    ∧ Npm.viewUrl ("@" ++ "theia" ++ "/" ++ "core")
        = Npm.registry ++ "@" ++ Npm.encodeURIComponent "theia" ++ "%2F"
          ++ Npm.encodeURIComponent "core"
    ∧ Npm.viewUrl "express" = Npm.registry ++ Npm.encodeURIComponent "express"
    ∧ (("Accept", Npm.abbreviatedAccept) ∈ Npm.viewHeaders none ↔
        (none : Option Bool) = none ∨ (none : Option Bool) = some true) :=
  C9_viewUrl_scoped_encoding_and_accept_header "theia" "core" "@theia/core"
    "express" "theia/core".data none (by decide) (by decide)

set_option maxHeartbeats 1600000 in
/-- C4: for every parent container, `createProblemTreeContainer` returns a
child container in which ITree resolves to a ProblemTree instance,
ITreeModel resolves to a ProblemTreeModel instance, the TreeWidget binding
is removed and replaced by a ProblemWidget binding to self, and TreeProps
resolves to MARKER_TREE_PROPS, which equals defaultTreeProps with
contextMenuPath set to MARKER_CONTEXT_MENU; the parent container's own
bindings are left unchanged. -/
theorem C4_createProblemTreeContainer_bindings
    (parent : List (MarkersDI.Svc × MarkersDI.Provider)) :
    let child := MarkersDI.createProblemTreeContainer parent
    MarkersDI.getS child 5 .iTreeS = some (.instOf .ProblemTreeC)
    ∧ MarkersDI.getS child 5 .iTreeModelS = some (.instOf .ProblemTreeModelC)
    ∧ MarkersDI.lookupB child.bindings .treeWidgetS = none
    ∧ MarkersDI.lookupB child.bindings .problemWidgetS
        = some (.toSelfOf .ProblemWidgetC)
    ∧ MarkersDI.getS child 5 .problemWidgetS = some (.instOf .ProblemWidgetC)
    ∧ MarkersDI.getS child 5 .treePropsS
        = some (.constOf (.props MarkersDI.MARKER_TREE_PROPS))
    ∧ MarkersDI.MARKER_TREE_PROPS
        = { MarkersDI.defaultTreeProps with
            contextMenuPath := some MarkersDI.MARKER_CONTEXT_MENU }
    ∧ child.parent = parent :=
  ⟨rfl, rfl, rfl, rfl, rfl, rfl, rfl, rfl⟩

/-- C7: the promise returned by `MonacoEditorProvider.get` resolves no
earlier than either the text-model reference promise or the preferences
ready promise, and the MonacoEditor it resolves to is constructed with
options taken from the model and the preferences: the model's readOnly
flag, wordWrap 'off', folding and glyphMargin enabled, and the current
values of the 'editor.lineNumbers' and 'editor.renderWhitespace'
preferences. -/
theorem C7_editorProvider_get_options
    (prefs : MonacoProvider.EditorPreferences) (uri : String)
    (referencePromise : MonacoProvider.Promise MonacoProvider.Reference)
    (readyPromise : MonacoProvider.Promise Unit) :
    let result := MonacoProvider.get prefs uri referencePromise readyPromise
    referencePromise.time ≤ result.time
    ∧ readyPromise.time ≤ result.time
    ∧ result.val.uri = uri
    ∧ result.val.options =
        { model := referencePromise.val.object.textEditorModel
          wordWrap := "off"
          folding := true
          lineNumbers := prefs.lineNumbers
          renderWhitespace := prefs.renderWhitespace
          glyphMargin := true
          readOnly := referencePromise.val.object.readOnly } :=
  ⟨Nat.le_max_left _ _, Nat.le_max_right _ _, rfl, rfl⟩

namespace Installer

theorem install_true_pck (cfg : ProjectConfig) (st : ProjectState) :
    (install cfg true st).state.pckDependencies = cfg.theiaDependencies := rfl

theorem install_true_bundle (cfg : ProjectConfig) (st : ProjectState) :
    (install cfg true st).state.bundleExists = true := rfl

theorem install_true_events (cfg : ProjectConfig) (st : ProjectState) :
    (install cfg true st).events = [.onWillInstall, .onDidInstall ⟨false⟩] :=
  rfl

theorem install_false_events (cfg : ProjectConfig) (st : ProjectState) :
    (install cfg false st).events = [.onWillInstall, .onDidInstall ⟨true⟩] :=
  rfl

theorem ok_of_success (cfg : ProjectConfig) (ok : Bool) (st : ProjectState)
    (h : InstallEvent.onDidInstall ⟨false⟩ ∈ (install cfg ok st).events) :
    ok = true := by
  cases ok with
  | true => rfl
  | false =>
    exfalso
    rw [install_false_events] at h
    simp at h

theorem hasModule_install_true (cfg : ProjectConfig) (st : ProjectState)
    (name : String) :
    hasModule (install cfg true st).state name ↔
      name ∈ cfg.theiaDependencies := by
  show (∃ linked, (name, linked) ∈
      st.nodeModules.filter (fun e => decide (e.1 ∈ cfg.theiaDependencies))
      ++ (cfg.theiaDependencies.filter
          (fun n => !(st.nodeModules.any (fun e => decide (e.1 = n))))).map
        (fun n => (n, decide (n ∈ cfg.localDependencies))))
      ↔ name ∈ cfg.theiaDependencies
  constructor
  · rintro ⟨b, hb⟩
    rcases List.mem_append.1 hb with h | h
    · exact of_decide_eq_true (List.mem_filter.1 h).2
    · rcases List.mem_map.1 h with ⟨n, hn, he⟩
      have hnn : n = name := congrArg Prod.fst he
      exact hnn ▸ (List.mem_filter.1 hn).1
  · intro hmem
    by_cases hany : st.nodeModules.any (fun e => decide (e.1 = name)) = true
    · rcases List.any_eq_true.1 hany with ⟨e, he, hdec⟩
      have hee : e.1 = name := of_decide_eq_true hdec
      refine ⟨e.2, List.mem_append.2 (Or.inl (List.mem_filter.2 ⟨?_, ?_⟩))⟩
      · rw [← hee]
        simpa using he
      · simpa using hmem
    · have hfalse : st.nodeModules.any (fun e => decide (e.1 = name)) = false := by
        cases hx : st.nodeModules.any (fun e => decide (e.1 = name)) with
        | false => rfl
        | true => exact absurd hx hany
      refine ⟨decide (name ∈ cfg.localDependencies),
        List.mem_append.2 (Or.inr (List.mem_map.2
          ⟨name, List.mem_filter.2 ⟨hmem, ?_⟩, rfl⟩))⟩
      simp only [hfalse, Bool.not_false]

theorem fresh_install_linked (cfg : ProjectConfig) (st : ProjectState)
    (name : String) (hmem : name ∈ cfg.theiaDependencies)
    (hnot : ∀ b, (name, b) ∉ st.nodeModules) :
    (name, decide (name ∈ cfg.localDependencies))
      ∈ (install cfg true st).state.nodeModules := by
  show (name, decide (name ∈ cfg.localDependencies)) ∈
      st.nodeModules.filter (fun e => decide (e.1 ∈ cfg.theiaDependencies))
      ++ (cfg.theiaDependencies.filter
          (fun n => !(st.nodeModules.any (fun e => decide (e.1 = n))))).map
        (fun n => (n, decide (n ∈ cfg.localDependencies)))
  have hfalse : st.nodeModules.any (fun e => decide (e.1 = name)) = false := by
    cases hx : st.nodeModules.any (fun e => decide (e.1 = name)) with
    | false => rfl
    | true =>
      exfalso
      rcases List.any_eq_true.1 hx with ⟨e, he, hdec⟩
      have hee : e.1 = name := of_decide_eq_true hdec
      have hpair : e = (name, e.2) := by
        cases e
        simp_all
      exact hnot e.2 (hpair ▸ he)
  refine List.mem_append.2 (Or.inr (List.mem_map.2
    ⟨name, List.mem_filter.2 ⟨hmem, ?_⟩, rfl⟩))
  simp only [hfalse, Bool.not_false]
end Installer

/-- C1: after every installation run of the AppProject installer that
completes successfully (onDidInstall fires with failed = false), the
dependencies of the generated package.json contain exactly the declared
extension set: a name is declared in theia.package.json iff it appears in
package.json's dependencies and is present under node_modules, and every
name no longer declared is absent from both. -/
theorem C1_install_syncs_declared_set (cfg : Installer.ProjectConfig)
    (ok : Bool) (st : Installer.ProjectState) (name : String)
    (h : Installer.InstallEvent.onDidInstall ⟨false⟩
      ∈ (Installer.install cfg ok st).events) :
    (name ∈ cfg.theiaDependencies ↔
      name ∈ (Installer.install cfg ok st).state.pckDependencies
      ∧ Installer.hasModule (Installer.install cfg ok st).state name)
    ∧ (name ∉ cfg.theiaDependencies →
        name ∉ (Installer.install cfg ok st).state.pckDependencies
        ∧ ¬ Installer.hasModule (Installer.install cfg ok st).state name) := by
  have hok := Installer.ok_of_success cfg ok st h
  subst hok
  constructor
  · rw [Installer.install_true_pck]
    constructor
    · intro hmem
      exact ⟨hmem, (Installer.hasModule_install_true cfg st name).2 hmem⟩
    · rintro ⟨hmem, _⟩
      exact hmem
  · intro hnot
    rw [Installer.install_true_pck]
    exact ⟨hnot, fun hmod =>
      hnot ((Installer.hasModule_install_true cfg st name).1 hmod)⟩

/-- Witness for C1 at a successful run from an empty project tree. -/
theorem C1_install_syncs_declared_set_witness :
    ("@theia/core" ∈ (Installer.ProjectConfig.mk
        ["@theia/core", "@theia/filesystem"] []).theiaDependencies ↔
      "@theia/core" ∈ (Installer.install
          ⟨["@theia/core", "@theia/filesystem"], []⟩ true
          ⟨[], [], false⟩).state.pckDependencies
      ∧ Installer.hasModule (Installer.install
          ⟨["@theia/core", "@theia/filesystem"], []⟩ true
          ⟨[], [], false⟩).state "@theia/core")
    ∧ ("@theia/core" ∉ (Installer.ProjectConfig.mk
        ["@theia/core", "@theia/filesystem"] []).theiaDependencies →
        "@theia/core" ∉ (Installer.install
          ⟨["@theia/core", "@theia/filesystem"], []⟩ true
          ⟨[], [], false⟩).state.pckDependencies
        ∧ ¬ Installer.hasModule (Installer.install
          ⟨["@theia/core", "@theia/filesystem"], []⟩ true
          ⟨[], [], false⟩).state "@theia/core") :=
  C1_install_syncs_declared_set ⟨["@theia/core", "@theia/filesystem"], []⟩
    true ⟨[], [], false⟩ "@theia/core" (by decide)

/-- C2: for an extension declared in theia.package.json that has an entry in
the localDependencies of .yo-rc.json, a successful installation links it: it
appears in the generated package.json dependencies and under node_modules
(freshly installed, as a link); and when its declaration is removed, the
next successful installation unlinks it, removing it from both. -/
theorem C2_local_dependency_link_unlink (cfg : Installer.ProjectConfig)
    (ok : Bool) (st : Installer.ProjectState) (name : String)
    (hLocal : name ∈ cfg.localDependencies)
    (h : Installer.InstallEvent.onDidInstall ⟨false⟩
      ∈ (Installer.install cfg ok st).events) :
    (name ∈ cfg.theiaDependencies →
      name ∈ (Installer.install cfg ok st).state.pckDependencies
      ∧ Installer.hasModule (Installer.install cfg ok st).state name)
    ∧ (name ∈ cfg.theiaDependencies → (∀ b, (name, b) ∉ st.nodeModules) →
        (name, true) ∈ (Installer.install cfg ok st).state.nodeModules)
    ∧ (name ∉ cfg.theiaDependencies →
        name ∉ (Installer.install cfg ok st).state.pckDependencies
        ∧ ¬ Installer.hasModule (Installer.install cfg ok st).state name) := by
  have hok := Installer.ok_of_success cfg ok st h
  subst hok
  refine ⟨?_, ?_, ?_⟩
  · intro hmem
    rw [Installer.install_true_pck]
    exact ⟨hmem, (Installer.hasModule_install_true cfg st name).2 hmem⟩
  · intro hmem hnot
    have := Installer.fresh_install_linked cfg st name hmem hnot
    rwa [decide_eq_true hLocal] at this
  · intro hmem
    rw [Installer.install_true_pck]
    exact ⟨hmem, fun hmod =>
      hmem ((Installer.hasModule_install_true cfg st name).1 hmod)⟩

/-- Witness for C2: "@theia/core" stays linked and "@theia/filesystem",
no longer declared, is removed. -/
theorem C2_local_dependency_link_unlink_witness :
    ("@theia/core" ∈ (Installer.ProjectConfig.mk ["@theia/core"]
        ["@theia/core", "@theia/filesystem"]).theiaDependencies →
      "@theia/core" ∈ (Installer.install
          ⟨["@theia/core"], ["@theia/core", "@theia/filesystem"]⟩ true
          ⟨["@theia/core", "@theia/filesystem"],
            [("@theia/core", true), ("@theia/filesystem", true)],
            true⟩).state.pckDependencies
      ∧ Installer.hasModule (Installer.install
          ⟨["@theia/core"], ["@theia/core", "@theia/filesystem"]⟩ true
          ⟨["@theia/core", "@theia/filesystem"],
            [("@theia/core", true), ("@theia/filesystem", true)],
            true⟩).state "@theia/core")
    ∧ ("@theia/core" ∈ (Installer.ProjectConfig.mk ["@theia/core"]
        ["@theia/core", "@theia/filesystem"]).theiaDependencies →
        (∀ b, ("@theia/core", b) ∉
          (Installer.ProjectState.mk ["@theia/core", "@theia/filesystem"]
            [("@theia/core", true), ("@theia/filesystem", true)]
            true).nodeModules) →
        ("@theia/core", true) ∈ (Installer.install
          ⟨["@theia/core"], ["@theia/core", "@theia/filesystem"]⟩ true
          ⟨["@theia/core", "@theia/filesystem"],
            [("@theia/core", true), ("@theia/filesystem", true)],
            true⟩).state.nodeModules)
    ∧ ("@theia/core" ∉ (Installer.ProjectConfig.mk ["@theia/core"]
        ["@theia/core", "@theia/filesystem"]).theiaDependencies →
        "@theia/core" ∉ (Installer.install
          ⟨["@theia/core"], ["@theia/core", "@theia/filesystem"]⟩ true
          ⟨["@theia/core", "@theia/filesystem"],
            [("@theia/core", true), ("@theia/filesystem", true)],
            true⟩).state.pckDependencies
        ∧ ¬ Installer.hasModule (Installer.install
          ⟨["@theia/core"], ["@theia/core", "@theia/filesystem"]⟩ true
          ⟨["@theia/core", "@theia/filesystem"],
            [("@theia/core", true), ("@theia/filesystem", true)],
            true⟩).state "@theia/core") :=
  C2_local_dependency_link_unlink
    ⟨["@theia/core"], ["@theia/core", "@theia/filesystem"]⟩ true
    ⟨["@theia/core", "@theia/filesystem"],
      [("@theia/core", true), ("@theia/filesystem", true)], true⟩
    "@theia/core" (by decide) (by decide)

/-- C3: an installation run whose onDidInstall fires with failed = false
ends with the frontend rebuilt (lib/bundle.js exists), and its event trace
is onWillInstall followed by the corresponding onDidInstall, so onWillInstall
fires first. -/
theorem C3_success_rebuilds_bundle_events_ordered
    (cfg : Installer.ProjectConfig) (ok : Bool) (st : Installer.ProjectState)
    (h : Installer.InstallEvent.onDidInstall ⟨false⟩
      ∈ (Installer.install cfg ok st).events) :
    (Installer.install cfg ok st).state.bundleExists = true
    ∧ (Installer.install cfg ok st).events
        = [.onWillInstall, .onDidInstall ⟨false⟩] := by
  have hok := Installer.ok_of_success cfg ok st h
  subst hok
  exact ⟨Installer.install_true_bundle cfg st,
    Installer.install_true_events cfg st⟩

/-- Witness for C3 at a successful run from an empty project tree. -/
theorem C3_success_rebuilds_bundle_events_ordered_witness :
    (Installer.install ⟨["@theia/core"], []⟩ true
      ⟨[], [], false⟩).state.bundleExists = true
    ∧ (Installer.install ⟨["@theia/core"], []⟩ true
        ⟨[], [], false⟩).events
      = [.onWillInstall, .onDidInstall ⟨false⟩] :=
  C3_success_rebuilds_bundle_events_ordered ⟨["@theia/core"], []⟩ true
    ⟨[], [], false⟩ (by decide)
